import Mathlib

/-!
Shallow embedding of the conversational storefront application (`src/app.py`)
for verification of its specification claims.

Modelling conventions:
* The aiogram FSM data dict (`state.get_data()` / `state.update_data(...)`) is
  an association list from string keys to `Val` (Python values: str, int,
  None, or a list of media-item dicts).
* Messaging side effects (prompt sending/deleting, `call.answer`, the
  `wizard_prompt_message_id` bookkeeping) are elided: they do not affect the
  wizard data or FSM-state transitions the claims are about.
* Handlers guarded by an aiogram state filter (`@dp.message(...waiting_text)`)
  are modelled as functions that return the session unchanged when the FSM
  state does not match, mirroring the dispatcher's routing.
* The admin-permission early returns (`message.from_user.id not in ADMIN_IDS`)
  are elided: all wizard claims concern an operator (admin) actor, and for a
  non-admin every handler leaves the session unchanged.
-/

namespace App

/-! ### Python string primitives

The Python string operations used by the handlers (`strip`, `lower`,
`startswith`, `splitlines`, `split(",")`, `isdigit`, `int(...)`, slicing)
are modelled structurally over the character list so that every definition
evaluates on concrete inputs. -/

/-- Python `s.strip()`: drop leading and trailing whitespace. -/
def pyStrip (s : String) : String :=
  ⟨((s.data.dropWhile Char.isWhitespace).reverse.dropWhile Char.isWhitespace).reverse⟩

/-- Python `s.lower()` (ASCII case folding; the filter tags and MIME types
this is applied to are ASCII or caseless). -/
def pyLower (s : String) : String :=
  ⟨s.data.map Char.toLower⟩

/-- Python `s.startswith(pre)`. -/
def pyStartsWith (s pre : String) : Bool :=
  pre.data.isPrefixOf s.data

/-- Python `s[:n]`. -/
def pyTake (s : String) (n : Nat) : String :=
  ⟨s.data.take n⟩

/-- Split a character list at each occurrence of a separator character. -/
def splitOnChar (sep : Char) : List Char → List (List Char)
  | [] => [[]]
  | c :: cs =>
    match splitOnChar sep cs with
    | [] => [[]]
    | h :: t => if c = sep then [] :: h :: t else (c :: h) :: t

/-- Python `s.splitlines()` as used here: split on newline. (Python omits a
trailing empty fragment after a final newline; every use site filters out
blank fragments anyway, so the results coincide.) -/
def pySplitlines (s : String) : List String :=
  (splitOnChar '\n' s.data).map (⟨·⟩)

/-- Python `s.split(",")`. -/
def pySplitComma (s : String) : List String :=
  (splitOnChar ',' s.data).map (⟨·⟩)

/-- A media item dict as built by the wizard: Python
`\x7b"type": ..., "value": ...\x7d` (kind in photo/video/document/url). -/
structure MediaItem where
  type : String
  value : String
deriving DecidableEq, Repr

/-- A Python value stored in the FSM data dict. -/
inductive Val where
  | vStr (s : String)
  | vNat (n : Nat)
  | vNone
  | vMedia (items : List MediaItem)
deriving DecidableEq, Repr

/-- The FSM data dict, keyed by string. -/
abbrev StateData : Type := List (String × Val)

/-- Dict lookup: `data.get(k)` (None-absent distinction is kept via `Option`). -/
def getVal (d : StateData) (k : String) : Option Val :=
  (d.find? (fun p => decide (p.1 = k))).map (·.2)

/-- Dict update: `state.update_data(**\x7bk: v\x7d)`. -/
def setData (d : StateData) (k : String) (v : Val) : StateData :=
  (k, v) :: d.filter (fun p => decide (p.1 ≠ k))

/-- `int(data.get(k, default))`; the wizard only ever stores ints under the
keys read this way (`wizard_index`), so other shapes fall back to the default. -/
def getNatD (d : StateData) (k : String) (default : Nat) : Nat :=
  match getVal d k with
  | some (.vNat n) => n
  | _ => default

/-- `media_items = data.get("media_items") or []` followed by
`if not isinstance(media_items, list): media_items = []` — any falsy or
non-list value collapses to the empty list. -/
def mediaForUpload (d : StateData) : List MediaItem :=
  match getVal d "media_items" with
  | some (.vMedia l) => l
  | _ => []

/-- Truthiness test and read of `data.get("custom_step_key")`: only a
non-empty string is a live redirect override. -/
def customKeyOf (d : StateData) : Option String :=
  match getVal d "custom_step_key" with
  | some (.vStr s) => if s = "" then none else some s
  | _ => none

/-- Python `str.isdigit()` on an ASCII decimal string: non-empty, digits only. -/
def pyIsDigit (s : String) : Bool :=
  !s.data.isEmpty && s.data.all (·.isDigit)

/-- Python `int(s)` for the digit-only strings the wizard accepts. -/
def pyInt (s : String) : Nat :=
  s.data.foldl (fun n c => n * 10 + (c.toNat - 48)) 0

/-- One step descriptor of the wizard table. The display-only fields
(`section`, `label`, `example`) are elided: no claim depends on prompt text. -/
structure WizardStep where
  key : String
  kind : String
deriving DecidableEq, Repr

/-- The apartment wizard step table (`APARTMENT_WIZARD_STEPS`, src lines
869-920), in declared order. -/
def APARTMENT_WIZARD_STEPS : List WizardStep :=
  [⟨"media_items", "media_upload"⟩,
   ⟨"header_text", "text"⟩,
   ⟨"short_desc", "text"⟩,
   ⟨"quote_desc", "text"⟩,
   ⟨"features_text", "text"⟩,
   ⟨"guests_max", "int"⟩,
   ⟨"tags", "text"⟩,
   ⟨"map_url", "url"⟩]

/-- The aiogram FSM state for the apartment wizard
(`AdminApartmentWizardState` plus the cleared/idle state). -/
inductive WizardFsm where
  | waiting_text
  | waiting_choice
  | waiting_media
  | preview
  | idle
deriving DecidableEq, Repr

/-- One operator's conversational session: FSM state plus the data dict. -/
structure WizSession where
  fsm : WizardFsm
  data : StateData
deriving DecidableEq

/-- Current wizard index of a session: `int(data.get("wizard_index", 0))`. -/
def wizardIndex (s : WizSession) : Nat :=
  getNatD s.data "wizard_index" 0

/-- `wizard_show_step`: set the FSM state according to the current step's
kind (prompt rendering elided). The index is always in range when called. -/
def wizard_show_step (s : WizSession) : WizSession :=
  match APARTMENT_WIZARD_STEPS.get? (wizardIndex s) with
  | none => s
  | some step =>
    if step.kind = "choice" then { s with fsm := .waiting_choice }
    else if step.kind = "media_upload" then { s with fsm := .waiting_media }
    else { s with fsm := .waiting_text }

/-- `wizard_advance`: increment the index, clear any custom-redirect
override, and either enter preview (index ≥ table length) or show the next
step. -/
def wizard_advance (s : WizSession) : WizSession :=
  let idx := getNatD s.data "wizard_index" 0 + 1
  let d := setData (setData s.data "wizard_index" (.vNat idx)) "custom_step_key" .vNone
  if idx ≥ APARTMENT_WIZARD_STEPS.length then { fsm := .preview, data := d }
  else wizard_show_step { s with data := d }

/-- `cb_admin_apt_add`: `state.clear()` then
`state.update_data(wizard_index=0, wizard_mode="add")` then show step 0. -/
def cb_admin_apt_add : WizSession :=
  wizard_show_step
    { fsm := .idle,
      data := setData (setData [] "wizard_index" (.vNat 0)) "wizard_mode" (.vStr "add") }

/-- `msg_apartment_wizard_text` (src lines 2318-2352): the free-text handler,
routed only in `waiting_text`. Rejects empty input, non-digit input on an
`int` step and non-http(s) input on a `url` step without touching the
session; otherwise stores the value (under the custom-redirect key if one is
active) and advances. -/
def msg_apartment_wizard_text (s : WizSession) (txt : String) : WizSession :=
  if s.fsm ≠ .waiting_text then s
  else
    let raw := pyStrip txt
    if raw = "" then s
    else
      match APARTMENT_WIZARD_STEPS.get? (getNatD s.data "wizard_index" 0) with
      | none => s
      | some step =>
        let key := (customKeyOf s.data).getD step.key
        if step.kind = "int" ∧ ¬ pyIsDigit raw then s
        else if step.kind = "url" ∧ ¬ (pyStartsWith raw "http://" ∨ pyStartsWith raw "https://") then s
        else
          let v : Val := if step.kind = "int" then .vNat (pyInt raw) else .vStr raw
          wizard_advance { s with data := setData (setData s.data key v) "custom_step_key" .vNone }

/-- An inbound message during the media-collection step: exactly one of
photo/video/document/text is present (classification done by the transport),
`other` covers messages with none of these (e.g. a sticker). -/
inductive MediaMsg where
  | photo (file_id : String)
  | video (file_id : String)
  | document (mime : String) (file_id : String)
  | text (t : String)
  | other
deriving DecidableEq, Repr

/-- Document classification by MIME type (src lines 2287-2293). -/
def classifyDocument (mime : String) : String :=
  if pyStartsWith (pyLower mime) "image/" then "photo"
  else if pyStartsWith (pyLower mime) "video/" then "video"
  else "document"

/-- The media items appended for one inbound message, exactly as
`msg_apartment_wizard_media` accepts them (src lines 2279-2300): one item per
photo/video/document upload; for text, one `url` item per non-blank line that
starts with an http(s) scheme. -/
def acceptedItemsOf (m : MediaMsg) : List MediaItem :=
  match m with
  | .photo f => [⟨"photo", f⟩]
  | .video f => [⟨"video", f⟩]
  | .document mime f => [⟨classifyDocument mime, f⟩]
  | .text t =>
    let urls := ((pySplitlines t).map pyStrip).filter (fun x => x ≠ "")
    let valid := urls.filter (fun u => pyStartsWith u "http://" || pyStartsWith u "https://")
    valid.map (fun u => ⟨"url", u⟩)
  | .other => []

/-- `msg_apartment_wizard_media` (src lines 2262-2316): routed only in
`waiting_media`; guards on the index and step kind; appends the accepted
items; a submission yielding zero accepted items is answered with a re-prompt
and changes nothing; otherwise the enlarged list is stored and the same step
is re-shown (no advance). -/
def msg_apartment_wizard_media (s : WizSession) (m : MediaMsg) : WizSession :=
  if s.fsm ≠ .waiting_media then s
  else
    let idx := getNatD s.data "wizard_index" 0
    if idx ≥ APARTMENT_WIZARD_STEPS.length then s
    else
      match APARTMENT_WIZARD_STEPS.get? idx with
      | none => s
      | some step =>
        if step.kind ≠ "media_upload" then s
        else
          let added := acceptedItemsOf m
          if added.length = 0 then s
          else
            wizard_show_step
              { s with data := setData s.data "media_items" (.vMedia (mediaForUpload s.data ++ added)) }

/-- `cb_apartment_wizard_media_done` (src lines 2250-2260): the explicit
"done" signal; only advances when the session is in the media step. -/
def cb_apartment_wizard_media_done (s : WizSession) : WizSession :=
  if s.fsm ≠ .waiting_media then s else wizard_advance s

/-- `cb_apartment_wizard_cancel` (src lines 2213-2217): `state.clear()`. -/
def cb_apartment_wizard_cancel (_s : WizSession) : WizSession :=
  { fsm := .idle, data := [] }

/-- Rendering of one dict value in an f-string (`f"\x7bdata.get(k, '')\x7d"`):
absent keys render via the `''` default, a stored `None` renders as Python
does. No preview field ever holds a media list (the media field is rendered
as a count), so that branch is unreachable and renders empty. -/
def pyStr (v : Option Val) : String :=
  match v with
  | none => ""
  | some (.vStr s) => s
  | some (.vNat n) => toString n
  | some .vNone => "None"
  | some (.vMedia _) => ""

/-- `f"\x7bdata.get(k, '')\x7d"` for a dict key. -/
def pyStrD (d : StateData) (k : String) : String :=
  pyStr (getVal d k)

/-- The media count shown by the preview (src lines 971-973, 986):
`media_items = data.get("media_items") or []`, a string is split into its
non-blank lines, and the count is the list length. -/
def previewMediaCount (d : StateData) : Nat :=
  match getVal d "media_items" with
  | some (.vMedia l) => l.length
  | some (.vStr s) => (((pySplitlines s).map pyStrip).filter (fun x => x ≠ "")).length
  | _ => 0

/-- The (key, rendered value) pairs interpolated by
`build_apartment_preview_text`, in the f-string's interpolation order
(src lines 974-989). -/
def build_apartment_preview_fields (d : StateData) : List (String × String) :=
  [("header_text", pyStrD d "header_text"),
   ("short_desc", pyStrD d "short_desc"),
   ("quote_desc", pyStrD d "quote_desc"),
   ("features_text", pyStrD d "features_text"),
   ("guests_max", pyStrD d "guests_max"),
   ("tags", pyStrD d "tags"),
   ("media_items", toString (previewMediaCount d)),
   ("map_url", pyStrD d "map_url"),
   ("sort_order", pyStrD d "sort_order")]

/-- `build_apartment_preview_text` (src lines 970-989): the literal HTML
fragments with the collected fields interpolated in source order. -/
def build_apartment_preview_text (d : StateData) : String :=
  "🏠 <b>Предпросмотр карточки/поста</b>\n\n" ++
  "<b>Верхний блок</b>\n" ++ pyStrD d "header_text" ++ "\n\n" ++
  "<b>Описание</b>\n" ++ pyStrD d "short_desc" ++ "\n\n" ++
  "<blockquote>" ++ pyStrD d "quote_desc" ++ "</blockquote>\n\n" ++
  "<b>Что есть в квартире</b>\n" ++
  "<blockquote>" ++ pyStrD d "features_text" ++ "</blockquote>\n\n" ++
  "<b>Публикация</b>\n" ++
  "• Максимум гостей: " ++ pyStrD d "guests_max" ++ "\n" ++
  "• Теги: " ++ pyStrD d "tags" ++ "\n" ++
  "• Медиа-файлов/ссылок: " ++ toString (previewMediaCount d) ++ "\n" ++
  "• Ссылка на карту: " ++ pyStrD d "map_url" ++ "\n" ++
  "• Порядок: " ++ pyStrD d "sort_order"

/-- The structured detail payload (`details_json`) written on commit. -/
structure DetailsPayload where
  header_text : String
  short_desc : String
  quote_desc : String
  features_text : String
  media_items : List MediaItem
deriving DecidableEq, Repr

/-- A persisted catalog-item row as written by the wizard commit.
`is_active` comes from the schema default TRUE on insert and is untouched on
update of an active row. Timestamps are elided. -/
structure ApartmentRow where
  title : String
  address_short : String
  guests_max : Nat
  amenities : String
  tags : List String
  price_from : Nat
  channel_post_url : String
  map_url : String
  sort_order : Nat
  details_json : DetailsPayload
  media_urls : List String
deriving DecidableEq, Repr

/-- Python truncation `t[:77] + "..."` applied when `len(t) > 80`. -/
def truncateTo (limit keep : Nat) (t : String) : String :=
  if t.data.length > limit then pyTake t keep ++ "..." else t

/-- First line of a string: `t.splitlines()[0]` for the non-empty, stripped
strings this is applied to. -/
def firstLine (t : String) : String :=
  (pySplitlines t).headD ""

/-- Normalization of the collected media value on commit (src lines
2416-2429): a list keeps the dict items whose stripped type and value are
both non-empty; a string contributes one `url` item per non-blank line;
anything else is empty. -/
def normalizeMediaItems (v : Option Val) : List MediaItem :=
  match v with
  | some (.vMedia l) =>
    l.filterMap (fun it =>
      let k := pyStrip it.type
      let val := pyStrip it.value
      if k ≠ "" ∧ val ≠ "" then some ⟨k, val⟩ else none)
  | some (.vStr s) =>
    ((pySplitlines s).map pyStrip).filterMap
      (fun line => if line ≠ "" then some ⟨"url", line⟩ else none)
  | _ => []

/-- `guests_max` coercion on commit (src lines 2408-2413): a stored int is
clamped to at least 1; otherwise the string form is parsed when it is all
digits, defaulting to 2. -/
def commitGuestsMax (v : Option Val) : Nat :=
  match v with
  | some (.vNat n) => max 1 n
  | w =>
    let t := pyStrip (pyStr w)
    if pyIsDigit t then pyInt t else 2

/-- `int(data.get("sort_order", 0))`: the value is an int (or its digit
string) whenever present. -/
def commitSortOrder (v : Option Val) : Nat :=
  match v with
  | some (.vNat n) => n
  | some (.vStr s) => pyInt s
  | _ => 0

/-- The row assembled and written by the save branch of
`cb_apartment_wizard_preview` (src lines 2393-2496). The same column values
are used for both the insert (add mode) and the update (edit mode). -/
def buildApartmentRow (d : StateData) : ApartmentRow :=
  let tags := ((pySplitComma (pyStrD d "tags")).map pyStrip).filterMap
    (fun x => if x ≠ "" then some (pyLower x) else none)
  let header_text := pyStrip (pyStrD d "header_text")
  let short_desc := pyStrip (pyStrD d "short_desc")
  let quote_desc := pyStrip (pyStrD d "quote_desc")
  let features_text := pyStrip (pyStrD d "features_text")
  let title := truncateTo 80 77
    (if header_text ≠ "" then pyStrip (firstLine header_text) else "Квартира")
  let address_short := truncateTo 120 117
    (if header_text ≠ "" then pyStrip (firstLine header_text) else "Адрес не указан")
  let guests_max := commitGuestsMax (getVal d "guests_max")
  let amenities := pyTake short_desc 180
  let sort_order := commitSortOrder (getVal d "sort_order")
  let media_items := normalizeMediaItems (getVal d "media_items")
  let media_urls := (media_items.filter (fun x => x.type = "url")).map (·.value)
  { title := title,
    address_short := address_short,
    guests_max := guests_max,
    amenities := amenities,
    tags := tags,
    price_from := 0,
    channel_post_url := "",
    map_url := pyStrD d "map_url",
    sort_order := sort_order,
    details_json :=
      { header_text := header_text,
        short_desc := short_desc,
        quote_desc := quote_desc,
        features_text := features_text,
        media_items := media_items },
    media_urls := media_urls }

/-- The save branch of `cb_apartment_wizard_preview` (src lines 2393-2504):
the row is assembled and handed to `db.execute`. When the write succeeds the
session is cleared (`state.clear()`); when the write raises a persistence
error, control leaves the handler before `state.clear()` is reached, so the
session — still in `preview` with all collected data — is returned untouched
and no row is persisted. -/
def cb_apartment_wizard_preview_save (s : WizSession) (persistOk : Bool) :
    WizSession × Option ApartmentRow :=
  let row := buildApartmentRow s.data
  if persistOk then ({ fsm := .idle, data := [] }, some row)
  else (s, none)

/-- A catalog item row as seen by `catalog_query` (columns not used by the
filter, ordering or pagination are elided). -/
structure Apartment where
  id : Nat
  guests_max : Nat
  tags : List String
  is_active : Bool
  sort_order : Int
deriving DecidableEq, Repr

/-- The filter object held in `user_filters`: an optional guest bucket and a
tag set (modelled as a list; only membership matters). -/
structure CatalogFilter where
  guests : Option String
  tags : List String
deriving DecidableEq, Repr

/-- The guest-bucket condition appended by `catalog_query` (src lines
492-504): each recognized bucket lowers to a `guests_max >=` threshold; any
other value adds no condition. -/
def guestsCond (guests : Option String) (a : Apartment) : Bool :=
  if guests = some "1-2" then a.guests_max ≥ 2
  else if guests = some "3-4" then a.guests_max ≥ 4
  else if guests = some "5+" then a.guests_max ≥ 5
  else true

/-- Filter-tag normalization (src line 506):
`[str(tag).strip().lower() for tag in ... if str(tag).strip()]`. -/
def normalizedFilterTags (l : List String) : List String :=
  l.filterMap (fun t => if pyStrip t ≠ "" then some (pyLower (pyStrip t)) else none)

/-- The tag condition (src lines 507-510): when the normalized request tags
are non-empty, the SQL `EXISTS (SELECT 1 FROM unnest(tags) AS tag WHERE
lower(tag) = ANY(...))` requires some item tag whose lowercase form is among
them. -/
def tagsCond (reqTags : List String) (a : Apartment) : Bool :=
  let tags := normalizedFilterTags reqTags
  tags.isEmpty || a.tags.any (fun t => tags.contains (pyLower t))

/-- The full WHERE clause of `catalog_query`. -/
def catalogPred (f : CatalogFilter) (a : Apartment) : Bool :=
  a.is_active && guestsCond f.guests a && tagsCond f.tags a

/-- The filtered set (before ordering and pagination). -/
def catalogMatches (db : List Apartment) (f : CatalogFilter) : List Apartment :=
  db.filter (catalogPred f)

/-- The SQL `ORDER BY sort_order, id` ordering. -/
def aptLe (a b : Apartment) : Prop :=
  a.sort_order < b.sort_order ∨ (a.sort_order = b.sort_order ∧ a.id ≤ b.id)

instance : DecidableRel aptLe := fun a b => by unfold aptLe; infer_instance

instance : IsTotal Apartment aptLe :=
  ⟨fun a b => by unfold aptLe; omega⟩

instance : IsTrans Apartment aptLe :=
  ⟨fun a b c hab hbc => by unfold aptLe at *; omega⟩

/-- The filtered result set in query order. -/
def catalogSorted (db : List Apartment) (f : CatalogFilter) : List Apartment :=
  (catalogMatches db f).insertionSort aptLe

/-- `catalog_query` (src lines 487-521): the total count of matching rows and
the 1-based page `LIMIT page_size OFFSET (page - 1) * page_size` of the
sorted matches. -/
def catalog_query (db : List Apartment) (f : CatalogFilter) (page : Nat)
    (page_size : Nat := 5) : List Apartment × Nat :=
  let total := (catalogMatches db f).length
  (((catalogSorted db f).drop ((page - 1) * page_size)).take page_size, total)

/-- `THROTTLE_SECONDS = 0.6`, expressed in milliseconds (times in the model
are integer millisecond timestamps; 0.6 s = 600 ms). -/
def THROTTLE_MS : Int := 600

/-- `throttle` (src lines 260-267) over the `last_click_at` map: a trigger
arriving before the cooldown has elapsed since the last accepted timestamp
for the same (user, key) pair reports suppressed and records nothing;
otherwise it is accepted and the pair's timestamp becomes `now`. -/
def throttle (last_click_at : Nat × String → Option Int) (user_id : Nat)
    (key : String) (now : Int) : Bool × (Nat × String → Option Int) :=
  match last_click_at (user_id, key) with
  | some last =>
    if now - last < THROTTLE_MS then (true, last_click_at)
    else (false, fun c => if c = (user_id, key) then some now else last_click_at c)
  | none => (false, fun c => if c = (user_id, key) then some now else last_click_at c)

/-- A promo-code row (timestamps elided). -/
structure PromoCode where
  id : Nat
  code : String
  kind : String
  is_assigned : Bool
  assigned_to : Option Nat
deriving DecidableEq, Repr

/-- `SELECT COUNT(*) FROM promo_codes WHERE assigned_to=$1 AND kind='welcome'`. -/
def welcomeCountFor (db : List PromoCode) (uid : Nat) : Nat :=
  (db.filter (fun c => decide (c.assigned_to = some uid ∧ c.kind = "welcome"))).length

/-- Ordering by id for `ORDER BY id`. -/
def promoIdLe (a b : PromoCode) : Prop := a.id ≤ b.id

instance : DecidableRel promoIdLe := fun a b => by unfold promoIdLe; infer_instance

instance : IsTotal PromoCode promoIdLe := ⟨fun a b => Nat.le_total a.id b.id⟩

instance : IsTrans PromoCode promoIdLe := ⟨fun _ _ _ => Nat.le_trans⟩

/-- `SELECT id, code FROM promo_codes WHERE kind='welcome' AND
is_assigned=FALSE ORDER BY id LIMIT 1`. -/
def firstUnassignedWelcome (db : List PromoCode) : Option PromoCode :=
  ((db.filter (fun c => decide (c.kind = "welcome" ∧ c.is_assigned = false))).insertionSort
    promoIdLe).head?

/-- The outcome reported to the user by `cb_welcome`. -/
inductive WelcomeOutcome where
  | alreadyHad
  | exhausted
  | granted (code : String)
deriving DecidableEq, Repr

/-- `cb_welcome` (src lines 1651-1675): reject when the user already holds a
welcome code; otherwise take the unassigned welcome code with the smallest
id, mark it assigned to the user (`UPDATE ... WHERE id=$2`; `assigned_at`
elided), and report it. -/
def cb_welcome (db : List PromoCode) (uid : Nat) : List PromoCode × WelcomeOutcome :=
  if welcomeCountFor db uid ≠ 0 then (db, .alreadyHad)
  else
    match firstUnassignedWelcome db with
    | none => (db, .exhausted)
    | some row =>
      (db.map (fun c =>
        if c.id = row.id then { c with is_assigned := true, assigned_to := some uid } else c),
       .granted row.code)

/-- The index clamp of `cb_apartment_media` (src line 1481):
`idx = max(0, min(idx, len(media_items) - 1))`. The inbound index is an
arbitrary integer parsed from the callback payload. -/
def clampMediaIndex (idx : Int) (n : Nat) : Nat :=
  (max 0 (min idx ((n : Int) - 1))).toNat

/-- The media item displayed by `cb_apartment_media` for a requested index
(src lines 1476-1482): alerts (`none`) when the item has no media, otherwise
clamps the index and displays the media item at the clamped position. -/
def cb_apartment_media (media_items : List MediaItem) (idx : Int) : Option MediaItem :=
  if media_items.isEmpty then none
  else media_items.get? (clampMediaIndex idx media_items.length)

/-- The text phase of a wizard run: the inbound messages folded through the
free-text handler. -/
def wizardTextRun (s : WizSession) (ts : List String) : WizSession :=
  ts.foldl msg_apartment_wizard_text s

/-- A full add-wizard run: start the wizard, submit the media messages,
signal done, then submit the free-text inputs in order. -/
def apartmentWizardRun (ms : List MediaMsg) (ts : List String) : WizSession :=
  wizardTextRun
    (cb_apartment_wizard_media_done (ms.foldl msg_apartment_wizard_media cb_admin_apt_add)) ts

/-- Invariant of the media-collection phase of a freshly started add wizard:
still in the media step at index 0, `sort_order` never stored, and the
collected media value (if any) is a list. -/
def isMediaPhase (s : WizSession) : Prop :=
  s.fsm = .waiting_media ∧ getVal s.data "wizard_index" = some (.vNat 0) ∧
  getVal s.data "sort_order" = none ∧
  (getVal s.data "media_items" = none ∨ ∃ L, getVal s.data "media_items" = some (.vMedia L))

/-! ### Dict access lemmas -/

theorem getVal_cons (p : String × Val) (d : StateData) (k : String) :
    getVal (p :: d) k = if p.1 = k then some p.2 else getVal d k := by
  by_cases h : p.1 = k <;> simp [getVal, List.find?, h]

theorem getVal_setData_same (d : StateData) (k : String) (v : Val) :
    getVal (setData d k v) k = some v := by
  simp [setData, getVal_cons]

theorem getVal_setData_ne (d : StateData) (k k' : String) (v : Val) (h : k ≠ k') :
    getVal (setData d k v) k' = getVal d k' := by
  have hne : ¬ (k = k') := h
  simp only [setData, getVal_cons, if_neg hne, ne_eq, decide_not]
  induction d with
  | nil => rfl
  | cons p t ih =>
    rw [List.filter_cons]
    by_cases hp : p.1 = k
    · have hpk : ¬ p.1 = k' := fun hc => hne (hp.symm.trans hc)
      simp [hp, getVal_cons, hpk, ih, hne]
    · have hk'k : ¬ k' = k := fun hc => hne hc.symm
      by_cases hpk : p.1 = k' <;> simp [hp, getVal_cons, hpk, ih, hk'k]

theorem wizard_show_step_data (s : WizSession) : (wizard_show_step s).data = s.data := by
  unfold wizard_show_step
  cases APARTMENT_WIZARD_STEPS.get? (wizardIndex s) with
  | none => rfl
  | some step => by_cases h1 : step.kind = "choice" <;> by_cases h2 : step.kind = "media_upload" <;>
      simp [h1, h2]

theorem wizardIndex_show_step (t : WizSession) :
    wizardIndex (wizard_show_step t) = wizardIndex t := by
  unfold wizardIndex
  rw [wizard_show_step_data]

theorem wizard_advance_data (s : WizSession) :
    (wizard_advance s).data =
      setData (setData s.data "wizard_index" (.vNat (getNatD s.data "wizard_index" 0 + 1)))
        "custom_step_key" .vNone := by
  simp only [wizard_advance]
  split
  · rfl
  · rw [wizard_show_step_data]

theorem wizardIndex_advance (s : WizSession) :
    wizardIndex (wizard_advance s) = wizardIndex s + 1 := by
  unfold wizardIndex
  rw [wizard_advance_data]
  simp [getNatD, getVal_setData_ne, getVal_setData_same]

/-! ### Media-collection handler case analysis -/

/-- The media handler either leaves the session untouched, or — in the media
step with at least one accepted item — appends the accepted items and
re-shows the same step. -/
theorem media_handler_eq (s : WizSession) (m : MediaMsg) :
    msg_apartment_wizard_media s m = s ∨
    (s.fsm = .waiting_media ∧ acceptedItemsOf m ≠ [] ∧
      APARTMENT_WIZARD_STEPS.get? (wizardIndex s) = some ⟨"media_items", "media_upload"⟩ ∧
      msg_apartment_wizard_media s m =
        wizard_show_step
          { s with data := (setData s.data "media_items"
              (.vMedia (mediaForUpload s.data ++ acceptedItemsOf m))) }) := by
  by_cases hf : s.fsm ≠ .waiting_media
  · left
    simp [msg_apartment_wizard_media, hf]
  have hf' : s.fsm = .waiting_media := not_not.mp hf
  by_cases hge : APARTMENT_WIZARD_STEPS.length ≤ getNatD s.data "wizard_index" 0
  · left
    simp [msg_apartment_wizard_media, hf', hge]
  have hlt : getNatD s.data "wizard_index" 0 < APARTMENT_WIZARD_STEPS.length := by omega
  by_cases ha : acceptedItemsOf m = []
  · left
    simp [msg_apartment_wizard_media, hf', hge, ha]
    split <;> simp
  rcases hstep : APARTMENT_WIZARD_STEPS.get? (getNatD s.data "wizard_index" 0) with _ | step <;>
    rw [List.get?_eq_getElem?] at hstep
  · left
    simp [msg_apartment_wizard_media, hf', hge, hstep]
  by_cases hk : step.kind = "media_upload"
  · right
    have hkey : step = ⟨"media_items", "media_upload"⟩ := by
      set n := getNatD s.data "wizard_index" 0 with hn
      have h8 : n < 8 := by simpa [APARTMENT_WIZARD_STEPS] using hlt
      interval_cases n <;> simp [APARTMENT_WIZARD_STEPS] at hstep <;>
        first
          | (exact hstep.symm)
          | (rw [← hstep] at hk; simp at hk)
    subst hkey
    refine ⟨hf', ha, by simpa [wizardIndex, List.get?_eq_getElem?] using hstep, ?_⟩
    simp [msg_apartment_wizard_media, hf', hge, hstep, ha, List.length_eq_zero]
  · left
    simp [msg_apartment_wizard_media, hf', hge, hstep, hk]

/-! ### The media phase of a fresh add-wizard run -/

theorem media_phase_step (s : WizSession) (m : MediaMsg) (h : isMediaPhase s) :
    isMediaPhase (msg_apartment_wizard_media s m) ∧
    mediaForUpload (msg_apartment_wizard_media s m).data
      = mediaForUpload s.data ++ acceptedItemsOf m := by
  obtain ⟨hf, hi, hs, hmi⟩ := h
  by_cases ha : acceptedItemsOf m = []
  · refine ⟨?_, ?_⟩ <;>
      simp [msg_apartment_wizard_media, hf, hi, getNatD, APARTMENT_WIZARD_STEPS, ha,
        isMediaPhase, hs, hmi]
  · refine ⟨⟨?_, ?_, ?_, ?_⟩, ?_⟩ <;>
      simp [msg_apartment_wizard_media, hf, hi, getNatD, APARTMENT_WIZARD_STEPS, ha,
        wizard_show_step, wizardIndex, getVal_setData_same, getVal_setData_ne, hs, hmi,
        mediaForUpload, List.length_eq_zero]

theorem media_phase_run (ms : List MediaMsg) :
    isMediaPhase (ms.foldl msg_apartment_wizard_media cb_admin_apt_add) ∧
    mediaForUpload (ms.foldl msg_apartment_wizard_media cb_admin_apt_add).data
      = ms.flatMap acceptedItemsOf := by
  suffices h : ∀ s, isMediaPhase s →
      isMediaPhase (ms.foldl msg_apartment_wizard_media s) ∧
      mediaForUpload (ms.foldl msg_apartment_wizard_media s).data
        = mediaForUpload s.data ++ ms.flatMap acceptedItemsOf by
    have h0 : isMediaPhase cb_admin_apt_add := ⟨rfl, rfl, rfl, .inl rfl⟩
    have := h cb_admin_apt_add h0
    simpa [show mediaForUpload cb_admin_apt_add.data = [] from rfl] using this
  induction ms with
  | nil => intro s hs; exact ⟨hs, by simp⟩
  | cons m ms ih =>
    intro s hs
    obtain ⟨h1, h2⟩ := media_phase_step s m hs
    obtain ⟨h3, h4⟩ := ih _ h1
    refine ⟨h3, ?_⟩
    simp only [List.foldl_cons] at h4 ⊢
    rw [h4, h2, List.flatMap_cons, List.append_assoc]

/-! ### The text phase of a wizard run -/

/-- From the media step of a fresh run, the done signal followed by seven
valid text inputs advances step by step and ends in the preview. -/
theorem wizard_text_phase_run
    (sm : WizSession) (t1 t2 t3 t4 t5 t6 t7 : String)
    (hm : sm.fsm = .waiting_media)
    (hidx : getVal sm.data "wizard_index" = some (.vNat 0))
    (h1 : pyStrip t1 ≠ "") (h2 : pyStrip t2 ≠ "") (h3 : pyStrip t3 ≠ "")
    (h4 : pyStrip t4 ≠ "")
    (h5 : pyIsDigit (pyStrip t5) = true) (h6 : pyStrip t6 ≠ "")
    (h7 : pyStartsWith (pyStrip t7) "http://" = true ∨
      pyStartsWith (pyStrip t7) "https://" = true) :
    (∀ ts ∈ [[], [t1], [t1, t2], [t1, t2, t3], [t1, t2, t3, t4], [t1, t2, t3, t4, t5],
        [t1, t2, t3, t4, t5, t6]],
      (wizardTextRun (cb_apartment_wizard_media_done sm) ts).fsm ≠ .preview ∧
      wizardIndex (wizardTextRun (cb_apartment_wizard_media_done sm) ts) = ts.length + 1) ∧
    (wizardTextRun (cb_apartment_wizard_media_done sm) [t1, t2, t3, t4, t5, t6, t7]).fsm
      = .preview ∧
    wizardIndex (wizardTextRun (cb_apartment_wizard_media_done sm) [t1, t2, t3, t4, t5, t6, t7])
      = 8 ∧
    build_apartment_preview_fields
        (wizardTextRun (cb_apartment_wizard_media_done sm) [t1, t2, t3, t4, t5, t6, t7]).data
      = [("header_text", pyStrip t1), ("short_desc", pyStrip t2), ("quote_desc", pyStrip t3),
         ("features_text", pyStrip t4), ("guests_max", toString (pyInt (pyStrip t5))),
         ("tags", pyStrip t6), ("media_items", toString (previewMediaCount sm.data)),
         ("map_url", pyStrip t7), ("sort_order", pyStrD sm.data "sort_order")] := by
  have h7' : pyStrip t7 ≠ "" := by
    intro he
    rw [he] at h7
    revert h7
    decide
  have h5' : pyStrip t5 ≠ "" := by
    intro he
    rw [he] at h5
    revert h5
    decide
  simp [wizardTextRun, msg_apartment_wizard_text, cb_apartment_wizard_media_done, hm,
    wizard_advance, wizard_show_step, wizardIndex, getNatD, customKeyOf,
    getVal_setData_same, getVal_setData_ne, hidx,
    APARTMENT_WIZARD_STEPS, h1, h2, h3, h4, h5, h6, h7, h5', h7',
    build_apartment_preview_fields, pyStrD, previewMediaCount, pyStr]

/-! ### Claim C1 -/

/-- C1 counterexample: a concrete wizard run in which every submitted input
is valid for its step (one photo, done, then seven valid texts) reaches the
preview, yet the preview does NOT render the collected fields in the Step
Definition Table's declared order: restricted to the table's keys, the
interpolation order places `media_items` seventh although the table declares
it first. -/
theorem c1_preview_order_counterexample :
    (apartmentWizardRun [.photo "F1"]
        ["H", "S", "Q", "F", "4", "t", "https://maps.example/1"]).fsm = .preview ∧
    ((build_apartment_preview_fields
        (apartmentWizardRun [.photo "F1"]
          ["H", "S", "Q", "F", "4", "t", "https://maps.example/1"]).data).map Prod.fst).filter
        (fun k => decide (k ∈ APARTMENT_WIZARD_STEPS.map (·.key)))
      ≠ APARTMENT_WIZARD_STEPS.map (·.key) := by
  decide

/-- C1 (amended): for every wizard run in which each submitted input is
valid for its step, the wizard reaches the preview state after exactly 8
advance transitions (the length of the step table: the media done signal
plus seven text submissions; after any proper prefix the state is not yet
`preview` and the index equals the number of advances). The preview renders
every collected field in a fixed order — header_text, short_desc,
quote_desc, features_text, guests_max, tags, media count, map_url — which is
the Step Definition Table's declared order except that `media_items`,
declared first in the table, is rendered seventh. The media count is the
count of accepted media items (not raw input lines), and a field never
visited during the run (`sort_order`) renders as the empty placeholder. -/
theorem c1_valid_run_reaches_preview
    (ms : List MediaMsg) (t1 t2 t3 t4 t5 t6 t7 : String)
    (h1 : pyStrip t1 ≠ "") (h2 : pyStrip t2 ≠ "") (h3 : pyStrip t3 ≠ "")
    (h4 : pyStrip t4 ≠ "")
    (h5 : pyIsDigit (pyStrip t5) = true) (h6 : pyStrip t6 ≠ "")
    (h7 : pyStartsWith (pyStrip t7) "http://" = true ∨
      pyStartsWith (pyStrip t7) "https://" = true) :
    (∀ ts ∈ [[], [t1], [t1, t2], [t1, t2, t3], [t1, t2, t3, t4], [t1, t2, t3, t4, t5],
        [t1, t2, t3, t4, t5, t6]],
      (apartmentWizardRun ms ts).fsm ≠ .preview ∧
      wizardIndex (apartmentWizardRun ms ts) = ts.length + 1) ∧
    (apartmentWizardRun ms [t1, t2, t3, t4, t5, t6, t7]).fsm = .preview ∧
    wizardIndex (apartmentWizardRun ms [t1, t2, t3, t4, t5, t6, t7]) = 8 ∧
    build_apartment_preview_fields
        (apartmentWizardRun ms [t1, t2, t3, t4, t5, t6, t7]).data
      = [("header_text", pyStrip t1), ("short_desc", pyStrip t2), ("quote_desc", pyStrip t3),
         ("features_text", pyStrip t4), ("guests_max", toString (pyInt (pyStrip t5))),
         ("tags", pyStrip t6),
         ("media_items", toString (ms.flatMap acceptedItemsOf).length),
         ("map_url", pyStrip t7), ("sort_order", "")] := by
  obtain ⟨⟨hf, hi, hs, hmi⟩, hm⟩ := media_phase_run ms
  have hcount : previewMediaCount (ms.foldl msg_apartment_wizard_media cb_admin_apt_add).data
      = (ms.flatMap acceptedItemsOf).length := by
    rw [← hm]
    rcases hmi with h | ⟨L, h⟩ <;> simp [previewMediaCount, mediaForUpload, h]
  have hsort : pyStrD (ms.foldl msg_apartment_wizard_media cb_admin_apt_add).data "sort_order"
      = "" := by
    simp [pyStrD, hs, pyStr]
  have core := wizard_text_phase_run _ t1 t2 t3 t4 t5 t6 t7 hf hi h1 h2 h3 h4 h5 h6 h7
  rw [hcount, hsort] at core
  exact core

/-- C1 witness: the amended run theorem at a concrete valid run. -/
theorem c1_valid_run_reaches_preview_witness :
    (apartmentWizardRun [.photo "F1"]
        ["Header", "Short", "Quote", "Features", "4", "parking,quiet",
         "https://maps.example/1"]).fsm = .preview ∧
    wizardIndex (apartmentWizardRun [.photo "F1"]
        ["Header", "Short", "Quote", "Features", "4", "parking,quiet",
         "https://maps.example/1"]) = 8 ∧
    build_apartment_preview_fields
        (apartmentWizardRun [.photo "F1"]
          ["Header", "Short", "Quote", "Features", "4", "parking,quiet",
           "https://maps.example/1"]).data
      = [("header_text", "Header"), ("short_desc", "Short"), ("quote_desc", "Quote"),
         ("features_text", "Features"), ("guests_max", "4"), ("tags", "parking,quiet"),
         ("media_items", "1"), ("map_url", "https://maps.example/1"), ("sort_order", "")] := by
  have h := c1_valid_run_reaches_preview [.photo "F1"]
    "Header" "Short" "Quote" "Features" "4" "parking,quiet" "https://maps.example/1"
    (by decide) (by decide) (by decide) (by decide) (by decide) (by decide) (.inr (by decide))
  refine ⟨h.2.1, h.2.2.1, ?_⟩
  rw [h.2.2.2]
  decide

/-! ### Claim C2 -/

/-- C2: for every wizard state and every input invalid for the current step
— empty (after stripping) text on any step, a non-digit string on the `int`
step, a string without an http/https prefix on the `url` step — the text
handler returns the session unchanged: the step index and every previously
collected field are untouched. -/
theorem c2_invalid_input_leaves_session (s : WizSession) (txt : String)
    (hinv : pyStrip txt = "" ∨
      ∃ step, APARTMENT_WIZARD_STEPS[wizardIndex s]? = some step ∧
        ((step.kind = "int" ∧ pyIsDigit (pyStrip txt) = false) ∨
         (step.kind = "url" ∧ pyStartsWith (pyStrip txt) "http://" = false ∧
           pyStartsWith (pyStrip txt) "https://" = false))) :
    msg_apartment_wizard_text s txt = s := by
  by_cases hf : s.fsm = .waiting_text
  · rcases hinv with he | ⟨step, hstep, hbad⟩
    · simp [msg_apartment_wizard_text, hf, he]
    · simp only [wizardIndex] at hstep
      by_cases he : pyStrip txt = ""
      · simp [msg_apartment_wizard_text, hf, he]
      · rcases hbad with ⟨hk, hd⟩ | ⟨hk, hu1, hu2⟩
        · simp [msg_apartment_wizard_text, hf, he, hstep, hk, hd]
        · simp [msg_apartment_wizard_text, hf, he, hstep, hk, hu1, hu2]
  · simp [msg_apartment_wizard_text, hf]

/-- C2 witness: a non-digit submission on the `int` step (index 5,
`guests_max`) leaves a session with collected fields exactly as it was. -/
theorem c2_invalid_input_leaves_session_witness :
    msg_apartment_wizard_text
        ⟨.waiting_text, [("wizard_index", .vNat 5), ("header_text", .vStr "H")]⟩ "abc"
      = ⟨.waiting_text, [("wizard_index", .vNat 5), ("header_text", .vStr "H")]⟩ :=
  c2_invalid_input_leaves_session _ "abc"
    (.inr ⟨⟨"guests_max", "int"⟩, by decide, .inl ⟨rfl, by decide⟩⟩)

/-! ### Claim C3 -/

/-- C3: during the media-collection step, the accepted-item count never
decreases under a media submission; a submission yielding zero accepted
items changes nothing (re-prompt only); a media submission never changes the
step index or the FSM state (the step advances only on the explicit done
signal, which increments the index by exactly one and leaves the collected
media untouched); and a brand-new wizard run starts with the count at
zero. -/
theorem c3_media_collection_invariants (s : WizSession) (m : MediaMsg) :
    ((mediaForUpload (msg_apartment_wizard_media s m).data).length
      ≥ (mediaForUpload s.data).length) ∧
    (acceptedItemsOf m = [] → msg_apartment_wizard_media s m = s) ∧
    wizardIndex (msg_apartment_wizard_media s m) = wizardIndex s ∧
    (msg_apartment_wizard_media s m).fsm = s.fsm ∧
    (s.fsm = .waiting_media →
      wizardIndex (cb_apartment_wizard_media_done s) = wizardIndex s + 1) ∧
    mediaForUpload (cb_apartment_wizard_media_done s).data = mediaForUpload s.data ∧
    mediaForUpload cb_admin_apt_add.data = [] := by
  have hdonemedia : mediaForUpload (cb_apartment_wizard_media_done s).data
      = mediaForUpload s.data := by
    unfold cb_apartment_wizard_media_done
    split
    · rfl
    · unfold mediaForUpload
      rw [wizard_advance_data]
      simp [getVal_setData_ne]
  have hdone : s.fsm = .waiting_media →
      wizardIndex (cb_apartment_wizard_media_done s) = wizardIndex s + 1 := by
    intro hf
    have : cb_apartment_wizard_media_done s = wizard_advance s := by
      simp [cb_apartment_wizard_media_done, hf]
    rw [this, wizardIndex_advance]
  rcases media_handler_eq s m with heq | ⟨hf, ha, hstep, heq⟩
  · rw [heq]
    exact ⟨le_refl _, fun _ => rfl, rfl, rfl, hdone, hdonemedia, by decide⟩
  · rw [heq]
    have hidx : wizardIndex (⟨.waiting_media, setData s.data "media_items"
        (.vMedia (mediaForUpload s.data ++ acceptedItemsOf m))⟩ : WizSession)
        = wizardIndex s := by
      simp [wizardIndex, getNatD, getVal_setData_ne]
    refine ⟨?_, fun h => absurd h ha, ?_, ?_, hdone, hdonemedia, by decide⟩
    · simp [wizard_show_step_data, mediaForUpload, getVal_setData_same]
    · rw [wizardIndex_show_step]
      rw [hf]
      exact hidx
    · rw [hf]
      unfold wizard_show_step
      rw [hidx, hstep]
      simp

/-- C3 witness: the invariants at a concrete media-step session receiving
one url line. -/
theorem c3_media_collection_invariants_witness :
    (mediaForUpload (msg_apartment_wizard_media
        ⟨.waiting_media, [("wizard_index", .vNat 0)]⟩ (.text "https://a")).data).length
      ≥ (mediaForUpload ([("wizard_index", .vNat 0)] : StateData)).length ∧
    wizardIndex (msg_apartment_wizard_media
        ⟨.waiting_media, [("wizard_index", .vNat 0)]⟩ (.text "https://a"))
      = wizardIndex ⟨.waiting_media, [("wizard_index", .vNat 0)]⟩ ∧
    mediaForUpload cb_admin_apt_add.data = [] := by
  have h := c3_media_collection_invariants
    ⟨.waiting_media, [("wizard_index", .vNat 0)]⟩ (.text "https://a")
  exact ⟨h.1, h.2.2.1, h.2.2.2.2.2.2⟩

/-! ### Claim C4 -/

/-- C4: a commit whose persistence write fails returns the session exactly
as it was (still in preview with all collected fields) and persists nothing;
a successful commit clears the session and persists the assembled row — the
session is cleared only on a successful commit. -/
theorem c4_commit_failure_preserves_session (s : WizSession) :
    cb_apartment_wizard_preview_save s false = (s, none) ∧
    (cb_apartment_wizard_preview_save s true).1 = ⟨.idle, []⟩ ∧
    (cb_apartment_wizard_preview_save s true).2 = some (buildApartmentRow s.data) :=
  ⟨rfl, rfl, rfl⟩

/-- C4 witness: the commit outcomes at a concrete preview session. -/
theorem c4_commit_failure_preserves_session_witness :
    cb_apartment_wizard_preview_save ⟨.preview, [("header_text", .vStr "H")]⟩ false
      = (⟨.preview, [("header_text", .vStr "H")]⟩, none) ∧
    (cb_apartment_wizard_preview_save ⟨.preview, [("header_text", .vStr "H")]⟩ true).1
      = ⟨.idle, []⟩ :=
  ⟨(c4_commit_failure_preserves_session ⟨.preview, [("header_text", .vStr "H")]⟩).1,
   (c4_commit_failure_preserves_session ⟨.preview, [("header_text", .vStr "H")]⟩).2.1⟩

/-! ### Claim C7 -/

/-- C7: every catalog-item row written by a wizard commit keeps the legacy
flat URL list consistent with the structured detail payload: the persisted
`media_urls` equals exactly the values of the detail payload's media items
whose kind is the external-url kind (`"url"`), in order. -/
theorem c7_media_urls_consistency (d : StateData) :
    (buildApartmentRow d).media_urls =
      ((buildApartmentRow d).details_json.media_items.filter
        (fun x => x.type = "url")).map (·.value) := rfl

/-- C7 witness: the invariant evaluated on concrete collected data mixing
uploads and urls. -/
theorem c7_media_urls_consistency_witness :
    (buildApartmentRow [("media_items",
        .vMedia [⟨"photo", "F1"⟩, ⟨"url", "https://a"⟩, ⟨"video", "F2"⟩,
          ⟨"url", "https://b"⟩])]).media_urls
      = ["https://a", "https://b"] ∧
    (buildApartmentRow [("media_items",
        .vMedia [⟨"photo", "F1"⟩, ⟨"url", "https://a"⟩, ⟨"video", "F2"⟩,
          ⟨"url", "https://b"⟩])]).media_urls
      = ((buildApartmentRow [("media_items",
          .vMedia [⟨"photo", "F1"⟩, ⟨"url", "https://a"⟩, ⟨"video", "F2"⟩,
            ⟨"url", "https://b"⟩])]).details_json.media_items.filter
          (fun x => x.type = "url")).map (·.value) :=
  ⟨by decide, c7_media_urls_consistency _⟩

/-! ### Catalog pagination lemmas -/

/-- Concatenating `n` consecutive `k`-sized chunks of `l` yields its first
`n * k` elements. -/
theorem range_flatMap_chunks {α : Type} (l : List α) (k n : Nat) :
    (List.range n).flatMap (fun i => (l.drop (i * k)).take k) = l.take (n * k) := by
  induction n with
  | zero => simp
  | succ n ih =>
    rw [List.range_succ, List.flatMap_append, ih]
    simp only [List.flatMap_cons, List.flatMap_nil, List.append_nil]
    rw [Nat.succ_mul, List.take_add]

theorem catalog_sorted_length (db : List Apartment) (f : CatalogFilter) :
    (catalogSorted db f).length = (catalogMatches db f).length := by
  unfold catalogSorted
  exact List.length_insertionSort _ _

/-- All pages of `catalog_query`, in order, concatenate to the full sorted
result set. -/
theorem catalog_pages_cover (db : List Apartment) (f : CatalogFilter) :
    (List.range (((catalogMatches db f).length + 5 - 1) / 5)).flatMap
        (fun i => (catalog_query db f (i + 1)).1)
      = catalogSorted db f := by
  have hcover : (catalogMatches db f).length
      ≤ (((catalogMatches db f).length + 5 - 1) / 5) * 5 := by
    omega
  calc (List.range (((catalogMatches db f).length + 5 - 1) / 5)).flatMap
        (fun i => (catalog_query db f (i + 1)).1)
      = (List.range (((catalogMatches db f).length + 5 - 1) / 5)).flatMap
        (fun i => ((catalogSorted db f).drop (i * 5)).take 5) := by
        apply List.flatMap_congr
        intro i _
        simp [catalog_query]
    _ = (catalogSorted db f).take ((((catalogMatches db f).length + 5 - 1) / 5) * 5) :=
        range_flatMap_chunks _ 5 _
    _ = catalogSorted db f := by
        apply List.take_of_length_le
        rw [catalog_sorted_length]
        exact hcover

/-! ### Claim C5 -/

/-- C5 counterexample: with the filter tag `" parking"` (leading space) the
claimed iff fails: the item with tag `"parking"` does appear in the query
result (the code strips filter tags before comparing), yet the filter's tag
set is non-empty and does not intersect the item's tag set
case-insensitively (no trimming). -/
theorem c5_catalog_filter_counterexample :
    (⟨1, 2, ["parking"], true, 0⟩ : Apartment) ∈
        (catalog_query [⟨1, 2, ["parking"], true, 0⟩] ⟨none, [" parking"]⟩ 1).1 ∧
    ¬(([" parking"] : List String) = [] ∨
        ∃ t ∈ (["parking"] : List String), ∃ ft ∈ ([" parking"] : List String),
          pyLower t = pyLower ft) := by
  decide

/-- C5 (amended): a catalog item appears on some page of the catalog query
iff it is in the table, is active, satisfies the guest-bucket threshold
condition (≥ 2 / ≥ 4 / ≥ 5 for buckets "1-2" / "3-4" / "5+", no condition
otherwise), and the filter's NORMALIZED tag set — each tag stripped of
surrounding whitespace and lowercased, entries that become empty dropped —
is either empty or contains the lowercase form of one of the item's tags. -/
theorem c5_catalog_filter_amended (db : List Apartment) (f : CatalogFilter) (a : Apartment) :
    (∃ page, 1 ≤ page ∧ a ∈ (catalog_query db f page).1) ↔
      (a ∈ db ∧ a.is_active = true ∧ guestsCond f.guests a = true ∧
        (normalizedFilterTags f.tags = [] ∨
          ∃ t ∈ a.tags, pyLower t ∈ normalizedFilterTags f.tags)) := by
  have hmem : ∀ x, x ∈ catalogSorted db f ↔ (x ∈ db ∧ catalogPred f x = true) := by
    intro x
    unfold catalogSorted catalogMatches
    rw [List.mem_insertionSort, List.mem_filter]
  have hpred : ∀ x, catalogPred f x = true ↔
      (x.is_active = true ∧ guestsCond f.guests x = true ∧
        (normalizedFilterTags f.tags = [] ∨
          ∃ t ∈ x.tags, pyLower t ∈ normalizedFilterTags f.tags)) := by
    intro x
    unfold catalogPred tagsCond
    simp only [Bool.and_eq_true, Bool.or_eq_true, List.isEmpty_iff, List.any_eq_true,
      List.elem_iff, and_assoc]
  constructor
  · rintro ⟨page, _, hp⟩
    have hsub : a ∈ catalogSorted db f := by
      have h1 := List.take_sublist 5 ((catalogSorted db f).drop ((page - 1) * 5))
      have h2 := List.drop_sublist ((page - 1) * 5) (catalogSorted db f)
      exact (h1.trans h2).subset hp
    rw [hmem] at hsub
    exact ⟨hsub.1, (hpred a).mp hsub.2⟩
  · rintro ⟨hdb, hrest⟩
    have hsorted : a ∈ catalogSorted db f := (hmem a).mpr ⟨hdb, (hpred a).mpr hrest⟩
    rw [← catalog_pages_cover db f] at hsorted
    obtain ⟨i, _, hpage⟩ := List.mem_flatMap.mp hsorted
    exact ⟨i + 1, Nat.le_add_left 1 i, hpage⟩

/-- C5 witness: the amended iff at a concrete table and filter. -/
theorem c5_catalog_filter_amended_witness :
    (∃ page, 1 ≤ page ∧ (⟨3, 4, ["Parking"], true, 0⟩ : Apartment) ∈
        (catalog_query [⟨3, 4, ["Parking"], true, 0⟩, ⟨4, 2, ["quiet"], false, 0⟩]
          ⟨some "3-4", ["parking"]⟩ page).1) ↔
      ((⟨3, 4, ["Parking"], true, 0⟩ : Apartment) ∈
          [(⟨3, 4, ["Parking"], true, 0⟩ : Apartment), ⟨4, 2, ["quiet"], false, 0⟩] ∧
        (⟨3, 4, ["Parking"], true, 0⟩ : Apartment).is_active = true ∧
        guestsCond (some "3-4") ⟨3, 4, ["Parking"], true, 0⟩ = true ∧
        (normalizedFilterTags ["parking"] = [] ∨
          ∃ t ∈ (⟨3, 4, ["Parking"], true, 0⟩ : Apartment).tags,
            pyLower t ∈ normalizedFilterTags ["parking"])) :=
  c5_catalog_filter_amended _ _ _

/-! ### Claim C6 -/

/-- C6: catalog pagination is 1-based with fixed page size 5; the pages
1 .. ceil(total/5), concatenated in order, reproduce exactly the full
filtered result set sorted by (sort_order, id) ascending (hence no
duplicates or omissions); any page beyond the last is the empty list rather
than an error; and every page reports the same total count. -/
theorem c6_pagination_partition (db : List Apartment) (f : CatalogFilter) :
    (List.range (((catalogMatches db f).length + 5 - 1) / 5)).flatMap
        (fun i => (catalog_query db f (i + 1)).1)
      = catalogSorted db f ∧
    List.Sorted aptLe (catalogSorted db f) ∧
    (∀ page, ((catalogMatches db f).length + 5 - 1) / 5 < page →
      (catalog_query db f page).1 = []) ∧
    (∀ page, (catalog_query db f page).2 = (catalogMatches db f).length) := by
  refine ⟨catalog_pages_cover db f, List.sorted_insertionSort aptLe _, ?_, fun _ => rfl⟩
  intro page hpage
  have hlen : (catalogSorted db f).length ≤ (page - 1) * 5 := by
    rw [catalog_sorted_length]
    have h1 : (catalogMatches db f).length
        ≤ (((catalogMatches db f).length + 5 - 1) / 5) * 5 := by
      omega
    have h2 : ((catalogMatches db f).length + 5 - 1) / 5 ≤ page - 1 := by omega
    calc (catalogMatches db f).length
        ≤ (((catalogMatches db f).length + 5 - 1) / 5) * 5 := h1
      _ ≤ (page - 1) * 5 := Nat.mul_le_mul_right 5 h2
  simp [catalog_query, List.drop_eq_nil_of_le hlen]

/-- C6 witness: pagination over a concrete seven-row table (two pages; page
3 is empty). -/
theorem c6_pagination_partition_witness :
    (List.range (((catalogMatches
        [⟨1, 2, [], true, 1⟩, ⟨2, 2, [], true, 0⟩, ⟨3, 2, [], true, 0⟩, ⟨4, 2, [], true, 2⟩,
         ⟨5, 2, [], true, 0⟩, ⟨6, 2, [], true, 1⟩, ⟨7, 2, [], false, 0⟩] ⟨none, []⟩).length
        + 5 - 1) / 5)).flatMap
        (fun i => (catalog_query
          [⟨1, 2, [], true, 1⟩, ⟨2, 2, [], true, 0⟩, ⟨3, 2, [], true, 0⟩, ⟨4, 2, [], true, 2⟩,
           ⟨5, 2, [], true, 0⟩, ⟨6, 2, [], true, 1⟩, ⟨7, 2, [], false, 0⟩] ⟨none, []⟩ (i + 1)).1)
      = catalogSorted
          [⟨1, 2, [], true, 1⟩, ⟨2, 2, [], true, 0⟩, ⟨3, 2, [], true, 0⟩, ⟨4, 2, [], true, 2⟩,
           ⟨5, 2, [], true, 0⟩, ⟨6, 2, [], true, 1⟩, ⟨7, 2, [], false, 0⟩] ⟨none, []⟩ ∧
    (catalog_query
        [⟨1, 2, [], true, 1⟩, ⟨2, 2, [], true, 0⟩, ⟨3, 2, [], true, 0⟩, ⟨4, 2, [], true, 2⟩,
         ⟨5, 2, [], true, 0⟩, ⟨6, 2, [], true, 1⟩, ⟨7, 2, [], false, 0⟩] ⟨none, []⟩ 3).1 = [] := by
  have h := c6_pagination_partition
    [⟨1, 2, [], true, 1⟩, ⟨2, 2, [], true, 0⟩, ⟨3, 2, [], true, 0⟩, ⟨4, 2, [], true, 2⟩,
     ⟨5, 2, [], true, 0⟩, ⟨6, 2, [], true, 1⟩, ⟨7, 2, [], false, 0⟩] ⟨none, []⟩
  exact ⟨h.1, h.2.2.1 3 (by decide)⟩

/-! ### Claim C8 -/

/-- C8: for every user and throttled action class, a trigger arriving within
the cooldown (600 ms) of the last accepted trigger for that (user, key) pair
is reported suppressed and registers nothing (the timestamp map is returned
unchanged, no error); a trigger arriving once the cooldown has elapsed —
e.g. 700 ms later — is accepted, records the new timestamp for exactly that
pair, and leaves every other (user, key) entry untouched. -/
theorem c8_throttle_window (m : Nat × String → Option Int) (u : Nat) (k : String)
    (tl t : Int) (h : m (u, k) = some tl) :
    (t - tl < THROTTLE_MS → throttle m u k t = (true, m)) ∧
    (THROTTLE_MS ≤ t - tl →
      (throttle m u k t).1 = false ∧
      (throttle m u k t).2 (u, k) = some t ∧
      ∀ c, c ≠ (u, k) → (throttle m u k t).2 c = m c) := by
  constructor
  · intro hlt
    simp [throttle, h, hlt]
  · intro hge
    have hnlt : ¬ (t - tl < THROTTLE_MS) := not_lt.mpr hge
    simp only [throttle, h, if_neg hnlt]
    exact ⟨by trivial, by simp, fun c hc => by simp [hc]⟩

/-- C8 witness: a second trigger 200 ms after an accepted one is suppressed
and registers nothing; a trigger 700 ms after the accepted one is accepted
again. -/
theorem c8_throttle_window_witness :
    throttle (fun c => if c = (7, "act") then some (0 : Int) else none) 7 "act" 200
      = (true, fun c => if c = (7, "act") then some (0 : Int) else none) ∧
    (throttle (fun c => if c = (7, "act") then some (0 : Int) else none) 7 "act" 700).1
      = false ∧
    (throttle (fun c => if c = (7, "act") then some (0 : Int) else none) 7 "act" 700).2 (7, "act")
      = some 700 :=
  ⟨(c8_throttle_window _ 7 "act" 0 200 rfl).1 (by decide),
   ((c8_throttle_window _ 7 "act" 0 700 rfl).2 (by decide)).1,
   (((c8_throttle_window _ 7 "act" 0 700 rfl).2 (by decide)).2).1⟩

/-! ### Claim C9 -/

/-- C9: when a user with no welcome promo code requests one and an
unassigned welcome code exists, the lowest-id such code is granted: in the
updated table it is marked assigned (`is_assigned` true, `assigned_to` the
user); a second request by the same user is rejected and changes nothing
further. -/
theorem c9_welcome_code_assignment (db : List PromoCode) (uid : Nat)
    (h1 : welcomeCountFor db uid = 0)
    (h2 : ∃ c ∈ db, c.kind = "welcome" ∧ c.is_assigned = false) :
    ∃ row, firstUnassignedWelcome db = some row ∧ row ∈ db ∧ row.kind = "welcome" ∧
      row.is_assigned = false ∧
      (cb_welcome db uid).2 = .granted row.code ∧
      (∃ c ∈ (cb_welcome db uid).1,
        c.id = row.id ∧ c.code = row.code ∧ c.is_assigned = true ∧
          c.assigned_to = some uid) ∧
      (∀ c ∈ (cb_welcome db uid).1, c.id = row.id →
        c.is_assigned = true ∧ c.assigned_to = some uid) ∧
      cb_welcome (cb_welcome db uid).1 uid = ((cb_welcome db uid).1, .alreadyHad) := by
  classical
  obtain ⟨c0, hc0, hk0, ha0⟩ := h2
  have hcf : c0 ∈ db.filter (fun c => decide (c.kind = "welcome" ∧ c.is_assigned = false)) := by
    simp [List.mem_filter, hc0, hk0, ha0]
  have hcs : c0 ∈ (db.filter
      (fun c => decide (c.kind = "welcome" ∧ c.is_assigned = false))).insertionSort
        promoIdLe := by
    simpa [List.mem_insertionSort] using hcf
  obtain ⟨row, hrow⟩ : ∃ row, firstUnassignedWelcome db = some row := by
    unfold firstUnassignedWelcome
    cases hl : (db.filter
        (fun c => decide (c.kind = "welcome" ∧ c.is_assigned = false))).insertionSort
          promoIdLe with
    | nil => rw [hl] at hcs; cases hcs
    | cons a t => exact ⟨a, by simp [hl]⟩
  have hrowmem : row ∈ db.filter
      (fun c => decide (c.kind = "welcome" ∧ c.is_assigned = false)) := by
    have hmem : row ∈ (db.filter
        (fun c => decide (c.kind = "welcome" ∧ c.is_assigned = false))).insertionSort
          promoIdLe := by
      unfold firstUnassignedWelcome at hrow
      cases hl : (db.filter
          (fun c => decide (c.kind = "welcome" ∧ c.is_assigned = false))).insertionSort
            promoIdLe with
      | nil => rw [hl] at hrow; cases hrow
      | cons a t =>
        rw [hl] at hrow
        simp at hrow
        simp [hl, hrow]
    simpa [List.mem_insertionSort] using hmem
  rw [List.mem_filter] at hrowmem
  obtain ⟨hrdb, hrprop⟩ := hrowmem
  have hrk : row.kind = "welcome" := (of_decide_eq_true hrprop).1
  have hra : row.is_assigned = false := (of_decide_eq_true hrprop).2
  have hcb : cb_welcome db uid =
      (db.map (fun c => if c.id = row.id then
        { c with is_assigned := true, assigned_to := some uid } else c),
       .granted row.code) := by
    unfold cb_welcome
    rw [if_neg (by simp [h1]), hrow]
  set db' := db.map (fun c => if c.id = row.id then
    { c with is_assigned := true, assigned_to := some uid } else c) with hdb'
  have hupd : ({ row with is_assigned := true, assigned_to := some uid } : PromoCode) ∈ db' := by
    rw [hdb']
    exact List.mem_map.mpr ⟨row, hrdb, by simp⟩
  refine ⟨row, hrow, hrdb, hrk, hra, by rw [hcb], ?_, ?_, ?_⟩
  · refine ⟨{ row with is_assigned := true, assigned_to := some uid }, ?_, rfl, rfl, rfl, rfl⟩
    rw [hcb]
    exact hupd
  · intro c hc hcid
    rw [hcb] at hc
    obtain ⟨a, _, hfa⟩ := List.mem_map.mp hc
    by_cases hid : a.id = row.id
    · rw [if_pos hid] at hfa
      rw [← hfa]
      exact ⟨rfl, rfl⟩
    · rw [if_neg hid] at hfa
      rw [← hfa] at hcid
      exact absurd hcid hid
  · have hcount : welcomeCountFor db' uid ≠ 0 := by
      have hin : ({ row with is_assigned := true, assigned_to := some uid } : PromoCode) ∈
          db'.filter (fun c => decide (c.assigned_to = some uid ∧ c.kind = "welcome")) := by
        rw [List.mem_filter]
        exact ⟨hupd, by simp [hrk]⟩
      unfold welcomeCountFor
      intro hzero
      rw [List.length_eq_zero] at hzero
      rw [hzero] at hin
      cases hin
    rw [hcb]
    unfold cb_welcome
    rw [if_pos hcount]

/-- C9 witness: a two-code pool; the lower-id unassigned welcome code is
granted and the repeat request is rejected. -/
theorem c9_welcome_code_assignment_witness :
    ∃ row, firstUnassignedWelcome
        [⟨2, "W2", "welcome", false, none⟩, ⟨1, "W1", "welcome", false, none⟩] = some row ∧
      row ∈ [(⟨2, "W2", "welcome", false, none⟩ : PromoCode), ⟨1, "W1", "welcome", false, none⟩] ∧
      row.kind = "welcome" ∧ row.is_assigned = false ∧
      (cb_welcome [⟨2, "W2", "welcome", false, none⟩, ⟨1, "W1", "welcome", false, none⟩] 42).2
        = .granted row.code ∧
      (∃ c ∈ (cb_welcome [⟨2, "W2", "welcome", false, none⟩,
          ⟨1, "W1", "welcome", false, none⟩] 42).1,
        c.id = row.id ∧ c.code = row.code ∧ c.is_assigned = true ∧ c.assigned_to = some 42) ∧
      (∀ c ∈ (cb_welcome [⟨2, "W2", "welcome", false, none⟩,
          ⟨1, "W1", "welcome", false, none⟩] 42).1, c.id = row.id →
        c.is_assigned = true ∧ c.assigned_to = some 42) ∧
      cb_welcome (cb_welcome [⟨2, "W2", "welcome", false, none⟩,
          ⟨1, "W1", "welcome", false, none⟩] 42).1 42
        = ((cb_welcome [⟨2, "W2", "welcome", false, none⟩,
            ⟨1, "W1", "welcome", false, none⟩] 42).1, .alreadyHad) :=
  c9_welcome_code_assignment _ 42 (by decide)
    ⟨⟨1, "W1", "welcome", false, none⟩, by decide, by decide⟩

/-! ### Claim C10 -/

/-- C10: for every requested media index (negative or past the end included)
and every non-empty media list, the carousel handler clamps the index into
[0, length-1] and therefore always displays an existing media item, never
indexing out of bounds. -/
theorem c10_media_index_clamped (media_items : List MediaItem) (idx : Int)
    (h : media_items ≠ []) :
    clampMediaIndex idx media_items.length < media_items.length ∧
    ∃ mi, cb_apartment_media media_items idx = some mi ∧ mi ∈ media_items := by
  have hn : 0 < media_items.length := List.length_pos.mpr h
  have hlt : clampMediaIndex idx media_items.length < media_items.length := by
    unfold clampMediaIndex
    omega
  refine ⟨hlt, media_items.get ⟨_, hlt⟩, ?_, List.get_mem _ _ _⟩
  unfold cb_apartment_media
  rw [if_neg (by simpa [List.isEmpty_iff] using h)]
  exact List.get?_eq_get hlt

/-- C10 witness: a negative index and an index past the end on a concrete
two-item list both display an existing item. -/
theorem c10_media_index_clamped_witness :
    (clampMediaIndex (-5) 2 < 2 ∧
      ∃ mi, cb_apartment_media [⟨"photo", "F1"⟩, ⟨"url", "https://a"⟩] (-5) = some mi ∧
        mi ∈ [(⟨"photo", "F1"⟩ : MediaItem), ⟨"url", "https://a"⟩]) ∧
    (clampMediaIndex 9 2 < 2 ∧
      ∃ mi, cb_apartment_media [⟨"photo", "F1"⟩, ⟨"url", "https://a"⟩] 9 = some mi ∧
        mi ∈ [(⟨"photo", "F1"⟩ : MediaItem), ⟨"url", "https://a"⟩]) :=
  ⟨c10_media_index_clamped [⟨"photo", "F1"⟩, ⟨"url", "https://a"⟩] (-5) (by decide),
   c10_media_index_clamped [⟨"photo", "F1"⟩, ⟨"url", "https://a"⟩] 9 (by decide)⟩

end App
